import Mathlib

/-!
Verification development for the expression subsystem of a math library
(lexer, recursive-descent parser, AST, evaluation against a mutable scope).

The repository ships the test suite of the expression parser
(`src/test/expression/parse.test.js`) but not `lib/expression/parse.js`
itself nor the node/compile sources, so the parser, AST and evaluator
below are modelled from the specification (`spec.md`), restricted to the
grammar fragment the verified properties exercise, and cross-checked
against the behaviour pinned down by the repository's test suite.
Numbers are modelled as exact rationals.
-/

set_option maxRecDepth 16000

namespace MathExpr

/-- Exact rational numbers represented as a numerator/denominator pair.
The numeric tower is an external collaborator of the spec (§1), so the
model only needs exact arithmetic on the literals the expression
language produces; a dedicated structure (normalized by the smart
constructor `mkQ`) keeps every operation definitionally reducible. -/
structure Q where
  num : Int
  den : Nat
  deriving Repr, DecidableEq

/-- Construct a normalized rational `n / d` (positive denominator, gcd
1); the denominator is expected to be nonzero (callers check). -/
def mkQ (n d : Int) : Q :=
  if d = 0 then ⟨0, 0⟩
  else
    let s : Int := if d < 0 then -1 else 1
    let n2 := s * n
    let d2 := (s * d).toNat
    let g := Nat.gcd n2.natAbs d2
    ⟨n2 / (g : Int), d2 / g⟩

instance instOfNatQ (n : Nat) : OfNat Q n := ⟨⟨(n : Int), 1⟩⟩

instance : Neg Q := ⟨fun a => ⟨-a.num, a.den⟩⟩

/-- Rational addition. -/
def Q.add (a b : Q) : Q := mkQ (a.num * b.den + b.num * a.den) (a.den * b.den)

/-- Rational subtraction. -/
def Q.sub (a b : Q) : Q := mkQ (a.num * b.den - b.num * a.den) (a.den * b.den)

/-- Rational multiplication. -/
def Q.mul (a b : Q) : Q := mkQ (a.num * b.num) (a.den * b.den)

/-- Rational division (the divisor is expected to be nonzero; callers
check). -/
def Q.div (a b : Q) : Q := mkQ (a.num * b.den) (a.den * b.num)

/-- Rational power with a natural exponent. -/
def Q.powNat (a : Q) : Nat → Q
  | 0 => 1
  | n + 1 => (a.powNat n).mul a

/-- Rational inverse (of a nonzero rational). -/
def Q.inv (a : Q) : Q := mkQ a.den a.num

instance : Add Q := ⟨Q.add⟩

instance : Sub Q := ⟨Q.sub⟩

instance : Mul Q := ⟨Q.mul⟩

instance : Div Q := ⟨Q.div⟩

instance : ToString Q :=
  ⟨fun q => if q.den = 1 then toString q.num else toString q.num ++ "/" ++ toString q.den⟩

/-- Modelled from the spec (§3.1 Tokens): a token carries a kind (number,
symbol, delimiter) and its literal text.  Keyword operators such as `to`
and `in` are delivered as plain symbol tokens and promoted by the parser
(design note §9: "let the parser promote them based on the expected-token
context").  Character offsets are not modelled. -/
inductive Tok where
  | num (q : Q)
  | sym (s : String)
  | delim (s : String)
  deriving Repr, DecidableEq

/-- Modelled from the spec (§3.2 AST node variants): the closed set of AST
node variants, restricted to the variants exercised here.  `ConstantNode`
is split into its kinds (`num`, `bool`, `undef`); `OperatorNode(op, fn,
args)` keeps the host function name `fnName`; `block` entries carry their
visibility flag. -/
inductive Node where
  | num (q : Q)
  | bool (b : Bool)
  | undef
  | sym (name : String)
  | op (opName fnName : String) (args : List Node)
  | conditional (cond thenExpr elseExpr : Node)
  | arrayLit (rows : List (List Node))
  | indexGet (obj : Node) (dims : List Node)
  | assign (name : String) (value : Node)
  | update (name : String) (dims : List Node) (value : Node)
  | call (fname : String) (args : List Node)
  | funcAssign (fname : String) (params : List String) (body : Node)
  | block (entries : List (Node × Bool))
  | paren (inner : Node)

/-- Modelled from the spec (§4.3, §6.2): runtime values of the numeric
host, restricted to the kinds exercised here: numbers (exact rationals),
booleans, the undefined value, units (a quantity with a unit name),
valueless units (a bare unit symbol, produced by symbol resolution),
arrays/matrices, user-defined callables (which capture no environment:
the body is re-evaluated against the scope current at call time), and
`ResultSet` block outputs.  The `sig` field of `func` models the callable
exposing an attribute equal to `name(params…)` (spec §4.3). -/
inductive Value where
  | num (q : Q)
  | bool (b : Bool)
  | undef
  | unit (q : Q) (u : String)
  | unitRef (u : String)
  | arr (elems : List Value)
  | func (params : List String) (sig : String) (body : Node)
  | resultSet (vals : List Value)

/-- Modelled from the spec (§7 error kinds): SyntaxError, UndefinedSymbol,
IndexError (structured as the offending index, the violated bound and
whether the lower bound was violated), IllegalScope, TypeError; `fuelOut`
is an artefact of the fuel-based embedding and never fires on the inputs
considered here. -/
inductive Err where
  | parseErr (msg : String)
  | undefinedSymbol (name : String)
  | illegalScope
  | indexOut (i : Int) (bound : Int) (low : Bool)
  | typeMismatch (msg : String)
  | fuelOut
  deriving Repr, DecidableEq

/-- Modelled from the spec (§6.4 error messages): the user-facing message
of each error kind (char offsets are not modelled). -/
def Err.message : Err → String
  | .parseErr msg => msg
  | .undefinedSymbol name => "Undefined symbol " ++ name
  | .illegalScope => "Scope contains an illegal symbol"
  | .indexOut i bound low =>
      if low then "Index out of range (" ++ toString i ++ " < " ++ toString bound ++ ")"
      else "Index out of range (" ++ toString i ++ " > " ++ toString bound ++ ")"
  | .typeMismatch msg => msg
  | .fuelOut => "fuel exhausted"

/-- Modelled from the spec (§3.3 Scope): a mutable mapping from identifier
to value, embedded as an association list threaded through evaluation. -/
abbrev Scope := List (String × Value)

/-- Scope lookup: first binding of the name wins. -/
def lookupVar (name : String) : Scope → Option Value
  | [] => none
  | (k, v) :: rest => if k = name then some v else lookupVar name rest

/-- Scope write: overwrite the first binding of the name, or append a new
binding. -/
def setVar (name : String) (v : Value) : Scope → Scope
  | [] => [(name, v)]
  | (k, w) :: rest => if k = name then (name, v) :: rest else (k, w) :: setVar name v rest

theorem lookupVar_setVar_same (name : String) (v : Value) (s : Scope) :
    lookupVar name (setVar name v s) = some v := by
  induction s with
  | nil => simp [setVar, lookupVar]
  | cons hd tl ih =>
      obtain ⟨k, w⟩ := hd
      by_cases hk : k = name
      · simp [setVar, lookupVar, hk]
      · simp [setVar, lookupVar, hk, ih]

theorem lookupVar_setVar_other (name k : String) (v : Value) (s : Scope)
    (h : k ≠ name) : lookupVar k (setVar name v s) = lookupVar k s := by
  induction s with
  | nil => simp [setVar, lookupVar, Ne.symm h]
  | cons hd tl ih =>
      obtain ⟨k2, w⟩ := hd
      by_cases hk : k2 = name
      · subst hk
        simp [setVar, lookupVar, Ne.symm h]
      · simp [setVar, lookupVar, hk, ih]

/-- Digit run to a natural number. -/
def digitsToNat (ds : List Char) : Nat :=
  ds.foldl (fun acc c => 10 * acc + (c.toNat - Char.toNat '0')) 0

/-- Identifier characters: leading letter or underscore, then
alphanumerics/underscores (spec §4.1 Symbols). -/
def isIdentStart (c : Char) : Bool := c.isAlpha || c = '_'

/-- Identifier continuation characters. -/
def isIdentChar (c : Char) : Bool := c.isAlphanum || c = '_'

/-- Single-character delimiters and operators recognised by the scanner
(spec §4.1), restricted to those the verified fragment needs. -/
def isDelimChar (c : Char) : Bool :=
  c = '(' || c = ')' || c = '[' || c = ']' || c = ',' || c = ';' ||
  c = '?' || c = ':' || c = '=' || c = '+' || c = '-' || c = '*' ||
  c = '/' || c = '^' || c = '!'

/-- Modelled from the spec (§4.1 Token stream): single-pass scanner.
Whitespace is skipped except newlines, which are emitted as delimiter
tokens (statement terminators).  Numbers are digit runs with an optional
fractional part.  Unsupported characters raise a syntax error. -/
def lexChars : Nat → List Char → Except Err (List Tok)
  | _, [] => .ok []
  | 0, _ => .error .fuelOut
  | fuel + 1, c :: cs =>
    if c = ' ' ∨ c = '\t' ∨ c = '\r' then lexChars fuel cs
    else if c = '\n' then
      (lexChars fuel cs).map (fun ts => Tok.delim "\n" :: ts)
    else if c.isDigit then
      let (ds, rest) := (c :: cs).span Char.isDigit
      match rest with
      | '.' :: r2 =>
          let (fs, rest2) := r2.span Char.isDigit
          let denPow : Nat := 10 ^ fs.length
          let q : Q := mkQ ((digitsToNat ds : Int) * denPow + (digitsToNat fs : Int)) (denPow : Int)
          (lexChars fuel rest2).map (fun ts => Tok.num q :: ts)
      | _ =>
          (lexChars fuel rest).map (fun ts => Tok.num (mkQ (digitsToNat ds : Int) 1) :: ts)
    else if isIdentStart c then
      let (ws, rest) := (c :: cs).span isIdentChar
      (lexChars fuel rest).map (fun ts => Tok.sym (String.mk ws) :: ts)
    else if isDelimChar c then
      (lexChars fuel cs).map (fun ts => Tok.delim (String.mk [c]) :: ts)
    else
      .error (.parseErr ("Syntax error in part " ++ String.mk [c]))

/-- Tokenize a source string. -/
def tokenize (s : String) : Except Err (List Tok) :=
  lexChars (s.length + 1) s.data

/-- Literal text of a token, for `Unexpected part "…"` messages. -/
def tokText : Tok → String
  | .num q => if q.den = 1 then toString q.num else toString q
  | .sym s => s
  | .delim d => d

/-- Wrap a string in double quotes. -/
def quoted (s : String) : String := "\"" ++ s ++ "\""

/-- Modelled from the spec (§4.2.1): whether a token sequence can start an
expression.  Numbers, ordinary symbols, parentheses, matrix brackets and
the unary prefix operators can; the keyword `to` cannot; the keyword `in`
can start an expression exactly when it stands for the inch unit, i.e.
when the token after it cannot itself start an expression. -/
def canStartExpr : List Tok → Bool
  | [] => false
  | Tok.num _ :: _ => true
  | Tok.sym s :: rest =>
      if s = "to" then false
      else if s = "in" then ! canStartExpr rest
      else true
  | Tok.delim d :: _ => d = "(" || d = "[" || d = "+" || d = "-"

/-- Drop leading statement separators (`;` and newline). -/
def skipSeps : List Tok → List Tok
  | Tok.delim ";" :: rest => skipSeps rest
  | Tok.delim "\n" :: rest => skipSeps rest
  | ts => ts

/-- Whether a node is a bare number literal (used by the implicit
multiplication rules). -/
def isNumConst : Node → Bool
  | .num _ => true
  | _ => false

/-- Extract parameter names when every argument of a parsed call is a bare
symbol (function assignment left sides, spec §4.2.4). -/
def allSyms : List Node → Option (List String)
  | [] => some []
  | Node.sym s :: rest => (allSyms rest).map (s :: ·)
  | _ => none

mutual

/-- Modelled from the spec (§4.2 tier 1, Block): semicolons/newlines
separate entries; `;` entries are marked invisible.  A source with no
separators yields the bare expression; empty entries are skipped; an
empty source yields the undefined constant.  A leftover token that is not
a separator raises `Unexpected part "…"`. -/
def parseBlock : Nat → List Tok → Except Err (Node × List Tok)
  | 0, _ => .error .fuelOut
  | fuel + 1, ts =>
    let ts1 := skipSeps ts
    match ts1 with
    | [] => .ok (Node.undef, [])
    | _ => do
      let (e1, ts2) ← parseAssignment fuel ts1
      match ts2 with
      | [] =>
          if ts1.length = ts.length then .ok (e1, [])
          else .ok (Node.block [(e1, true)], [])
      | Tok.delim ";" :: rest => parseBlockEntries fuel [(e1, false)] rest
      | Tok.delim "\n" :: rest => parseBlockEntries fuel [(e1, true)] rest
      | t :: _ => .error (.parseErr ("Unexpected part " ++ quoted (tokText t)))

/-- Remaining entries of a block (accumulator holds parsed entries in
reverse). -/
def parseBlockEntries : Nat → List (Node × Bool) → List Tok → Except Err (Node × List Tok)
  | 0, _, _ => .error .fuelOut
  | fuel + 1, acc, ts =>
    let ts1 := skipSeps ts
    match ts1 with
    | [] => .ok (Node.block acc.reverse, [])
    | _ => do
      let (e, ts2) ← parseAssignment fuel ts1
      match ts2 with
      | [] => .ok (Node.block ((e, true) :: acc).reverse, [])
      | Tok.delim ";" :: rest => parseBlockEntries fuel ((e, false) :: acc) rest
      | Tok.delim "\n" :: rest => parseBlockEntries fuel ((e, true) :: acc) rest
      | t :: _ => .error (.parseErr ("Unexpected part " ++ quoted (tokText t)))

/-- Modelled from the spec (§4.2 tier 2, Assignment): right-associative;
accepts `SYMBOL = expr`, `SYMBOL(params) = expr` (function assignment,
where each param must be a bare symbol) and `INDEX = expr` (update); any
other left side is a syntax error. -/
def parseAssignment : Nat → List Tok → Except Err (Node × List Tok)
  | 0, _ => .error .fuelOut
  | fuel + 1, ts => do
    let (node, ts2) ← parseConditional fuel ts
    match ts2 with
    | Tok.delim "=" :: rest =>
      match node with
      | Node.sym name => do
          let (v, ts3) ← parseAssignment fuel rest
          .ok (Node.assign name v, ts3)
      | Node.indexGet (Node.sym name) dims => do
          let (v, ts3) ← parseAssignment fuel rest
          .ok (Node.update name dims v, ts3)
      | Node.call fname args =>
          match allSyms args with
          | some params => do
              let (body, ts3) ← parseAssignment fuel rest
              .ok (Node.funcAssign fname params body, ts3)
          | none => .error (.parseErr "Syntax error in function assignment: parameters must be symbols")
      | _ => .error (.parseErr "Syntax error in assignment: invalid left hand side")
    | _ => .ok (node, ts2)

/-- Modelled from the spec (§4.2 tier 3, Conditional): `expr ? expr : expr`,
right-associative; a missing `:` raises `False part of conditional
expression expected`. -/
def parseConditional : Nat → List Tok → Except Err (Node × List Tok)
  | 0, _ => .error .fuelOut
  | fuel + 1, ts => do
    let (cond, ts2) ← parseConversion fuel ts
    match ts2 with
    | Tok.delim "?" :: rest => do
        let (tExpr, ts3) ← parseConversion fuel rest
        match ts3 with
        | Tok.delim ":" :: rest2 => do
            let (eExpr, ts4) ← parseConditional fuel rest2
            .ok (Node.conditional cond tExpr eExpr, ts4)
        | _ => .error (.parseErr "False part of conditional expression expected")
    | _ => .ok (cond, ts2)

/-- Modelled from the spec (§4.2 tier 5 and §4.2.1, Conversion): `expr
('to'|'in') expr`, left-associative; `in` is promoted to the conversion
operator only when the following token can start an expression, and is
otherwise left for the lower tiers (the inch unit). -/
def parseConversion : Nat → List Tok → Except Err (Node × List Tok)
  | 0, _ => .error .fuelOut
  | fuel + 1, ts => do
    let (node, ts2) ← parseAdditive fuel ts
    parseConversionLoop fuel node ts2

/-- Conversion-operator chain. -/
def parseConversionLoop : Nat → Node → List Tok → Except Err (Node × List Tok)
  | 0, _, _ => .error .fuelOut
  | fuel + 1, node, ts =>
    match ts with
    | Tok.sym "to" :: rest => do
        let (rhs, ts2) ← parseAdditive fuel rest
        parseConversionLoop fuel (Node.op "to" "to" [node, rhs]) ts2
    | Tok.sym "in" :: rest =>
        if canStartExpr rest then do
          let (rhs, ts2) ← parseAdditive fuel rest
          parseConversionLoop fuel (Node.op "in" "to" [node, rhs]) ts2
        else .ok (node, ts)
    | _ => .ok (node, ts)

/-- Modelled from the spec (§4.2 tier 7, Additive): `+ -`,
left-associative. -/
def parseAdditive : Nat → List Tok → Except Err (Node × List Tok)
  | 0, _ => .error .fuelOut
  | fuel + 1, ts => do
    let (node, ts2) ← parseUnary fuel ts
    parseMulLoop fuel node ts2 >>= fun (n2, ts3) => parseAddLoop fuel n2 ts3

/-- Additive-operator chain. -/
def parseAddLoop : Nat → Node → List Tok → Except Err (Node × List Tok)
  | 0, _, _ => .error .fuelOut
  | fuel + 1, node, ts =>
    match ts with
    | Tok.delim "+" :: rest => do
        let (rhs, ts2) ← parseUnary fuel rest
        let (rhs2, ts3) ← parseMulLoop fuel rhs ts2
        parseAddLoop fuel (Node.op "+" "add" [node, rhs2]) ts3
    | Tok.delim "-" :: rest => do
        let (rhs, ts2) ← parseUnary fuel rest
        let (rhs2, ts3) ← parseMulLoop fuel rhs ts2
        parseAddLoop fuel (Node.op "-" "subtract" [node, rhs2]) ts3
    | _ => .ok (node, ts)

/-- Modelled from the spec (§4.2 tiers 8 and 12, Multiplicative and
implicit multiplication): `* /` left-associative; adjacency creates an
`OperatorNode('*')` when the right operand is a symbol, parenthesised
expression or matrix literal; adjacency with a bare number right operand
multiplies only when the left is not itself a bare number (adjacency of
two bare numbers is an error raised upstream, and this extra number case
is pinned down by the repository's tests, e.g. `(2+3)2 = 10`); the
keyword `in` attaches as the inch unit after a bare number literal when
the token following it cannot start an expression. -/
def parseMulLoop : Nat → Node → List Tok → Except Err (Node × List Tok)
  | 0, _, _ => .error .fuelOut
  | fuel + 1, node, ts =>
    match ts with
    | Tok.delim "*" :: rest => do
        let (rhs, ts2) ← parseUnary fuel rest
        parseMulLoop fuel (Node.op "*" "multiply" [node, rhs]) ts2
    | Tok.delim "/" :: rest => do
        let (rhs, ts2) ← parseUnary fuel rest
        parseMulLoop fuel (Node.op "/" "divide" [node, rhs]) ts2
    | Tok.sym s :: rest =>
        if s = "to" then .ok (node, ts)
        else if s = "in" then
          if isNumConst node && ! canStartExpr rest then do
            let (rhs, ts2) ← parseUnary fuel ts
            parseMulLoop fuel (Node.op "*" "multiply" [node, rhs]) ts2
          else .ok (node, ts)
        else do
          let (rhs, ts2) ← parseUnary fuel ts
          parseMulLoop fuel (Node.op "*" "multiply" [node, rhs]) ts2
    | Tok.delim "(" :: _ => do
        let (rhs, ts2) ← parseUnary fuel ts
        parseMulLoop fuel (Node.op "*" "multiply" [node, rhs]) ts2
    | Tok.delim "[" :: _ => do
        let (rhs, ts2) ← parseUnary fuel ts
        parseMulLoop fuel (Node.op "*" "multiply" [node, rhs]) ts2
    | Tok.num _ :: _ =>
        if isNumConst node then .ok (node, ts)
        else do
          let (rhs, ts2) ← parseUnary fuel ts
          parseMulLoop fuel (Node.op "*" "multiply" [node, rhs]) ts2
    | _ => .ok (node, ts)

/-- Modelled from the spec (§4.2 tier 9, Unary prefix): `+` and `-` bind
tighter than multiplication but looser than power (`-3^2 = -9`). -/
def parseUnary : Nat → List Tok → Except Err (Node × List Tok)
  | 0, _ => .error .fuelOut
  | fuel + 1, ts =>
    match ts with
    | Tok.delim "+" :: rest => do
        let (a, ts2) ← parseUnary fuel rest
        .ok (Node.op "+" "unaryPlus" [a], ts2)
    | Tok.delim "-" :: rest => do
        let (a, ts2) ← parseUnary fuel rest
        .ok (Node.op "-" "unaryMinus" [a], ts2)
    | _ => parsePow fuel ts

/-- Modelled from the spec (§4.2 tier 10, Power): `^` right-associative;
a unary prefix is accepted on the right operand (`2^-2`). -/
def parsePow : Nat → List Tok → Except Err (Node × List Tok)
  | 0, _ => .error .fuelOut
  | fuel + 1, ts => do
    let (base, ts2) ← parsePostfix fuel ts
    match ts2 with
    | Tok.delim "^" :: rest => do
        let (e, ts3) ← parseUnary fuel rest
        .ok (Node.op "^" "pow" [base, e], ts3)
    | _ => .ok (base, ts2)

/-- Modelled from the spec (§4.2 tier 11, Postfix): `!` (factorial),
left-associative and chainable. -/
def parsePostfix : Nat → List Tok → Except Err (Node × List Tok)
  | 0, _ => .error .fuelOut
  | fuel + 1, ts => do
    let (node, ts2) ← parseAtom fuel ts
    parsePostfixLoop fuel node ts2

/-- Postfix-operator chain. -/
def parsePostfixLoop : Nat → Node → List Tok → Except Err (Node × List Tok)
  | 0, _, _ => .error .fuelOut
  | fuel + 1, node, ts =>
    match ts with
    | Tok.delim "!" :: rest => parsePostfixLoop fuel (Node.op "!" "factorial" [node]) rest
    | _ => .ok (node, ts)

/-- Modelled from the spec (§4.2 tier 13, Atom; §4.2.2 matrix literals;
§4.2.3 indexing; §4.2.4 function calls): number literals, the boolean
constants, symbols (a symbol directly followed by `(` is a call, directly
followed by `[` is indexing), parenthesised expressions and matrix
literals. -/
def parseAtom : Nat → List Tok → Except Err (Node × List Tok)
  | 0, _ => .error .fuelOut
  | fuel + 1, ts =>
    match ts with
    | Tok.num q :: rest => .ok (Node.num q, rest)
    | Tok.sym s :: rest =>
        if s = "true" then .ok (Node.bool true, rest)
        else if s = "false" then .ok (Node.bool false, rest)
        else
          match rest with
          | Tok.delim "(" :: r2 =>
              (match r2 with
               | Tok.delim ")" :: r3 => .ok (Node.call s [], r3)
               | _ => do
                  let (args, ts2) ← parseArgs fuel [] r2
                  .ok (Node.call s args, ts2))
          | Tok.delim "[" :: r2 => do
              let (dims, ts2) ← parseDims fuel [] r2
              .ok (Node.indexGet (Node.sym s) dims, ts2)
          | _ => .ok (Node.sym s, rest)
    | Tok.delim "(" :: rest => do
        let (inner, ts2) ← parseAssignment fuel rest
        match ts2 with
        | Tok.delim ")" :: r2 => .ok (Node.paren inner, r2)
        | _ => .error (.parseErr "Parenthesis ) expected")
    | Tok.delim "[" :: rest =>
        (match rest with
         | Tok.delim "]" :: r2 => .ok (Node.arrayLit [], r2)
         | _ => do
            let (rows, ts2) ← parseMatrixRows fuel [] [] rest
            match rows with
            | r :: rs =>
                if rs.all (fun row => row.length = r.length) then
                  .ok (Node.arrayLit rows, ts2)
                else .error (.parseErr "Column dimensions mismatch")
            | [] => .ok (Node.arrayLit [], ts2))
    | [] => .error (.parseErr "Unexpected end of expression")
    | t :: _ => .error (.parseErr ("Value expected, got " ++ quoted (tokText t)))

/-- Call arguments after `(` (accumulator in reverse); each argument is a
conditional-tier expression. -/
def parseArgs : Nat → List Node → List Tok → Except Err (List Node × List Tok)
  | 0, _, _ => .error .fuelOut
  | fuel + 1, acc, ts => do
    let (a, ts2) ← parseConditional fuel ts
    match ts2 with
    | Tok.delim "," :: rest => parseArgs fuel (a :: acc) rest
    | Tok.delim ")" :: rest => .ok ((a :: acc).reverse, rest)
    | _ => .error (.parseErr "Parenthesis ) expected")

/-- Index dimensions after `[` (accumulator in reverse). -/
def parseDims : Nat → List Node → List Tok → Except Err (List Node × List Tok)
  | 0, _, _ => .error .fuelOut
  | fuel + 1, acc, ts => do
    let (d, ts2) ← parseConditional fuel ts
    match ts2 with
    | Tok.delim "," :: rest => parseDims fuel (d :: acc) rest
    | Tok.delim "]" :: rest => .ok ((d :: acc).reverse, rest)
    | _ => .error (.parseErr "Parenthesis ] expected")

/-- Matrix literal rows after `[`: rows separated by `;`, columns by `,`
(both accumulators in reverse); a missing `]` raises `End of matrix ]
expected`. -/
def parseMatrixRows : Nat → List (List Node) → List Node → List Tok →
    Except Err (List (List Node) × List Tok)
  | 0, _, _, _ => .error .fuelOut
  | fuel + 1, rows, row, ts => do
    let (cell, ts2) ← parseAssignment fuel ts
    match ts2 with
    | Tok.delim "," :: rest => parseMatrixRows fuel rows (cell :: row) rest
    | Tok.delim ";" :: rest => parseMatrixRows fuel ((cell :: row).reverse :: rows) [] rest
    | Tok.delim "]" :: rest => .ok ((((cell :: row).reverse) :: rows).reverse, rest)
    | _ => .error (.parseErr "End of matrix ] expected")

end

/-- Parse a token list into a single AST. -/
def parseTokens (ts : List Tok) : Except Err Node := do
  let (node, rest) ← parseBlock (20 * (ts.length + 1)) ts
  match rest with
  | [] => .ok node
  | t :: _ => .error (.parseErr ("Unexpected part " ++ quoted (tokText t)))

/-- Modelled from the spec (§6.1): `parse(source)` for a single string
source. -/
def parse (s : String) : Except Err Node := do
  parseTokens (← tokenize s)

/-- Modelled from the spec (§6.1): `parse` applied to a sequence of
strings yields a sequence of nodes. -/
def parseMulti (xs : List String) : Except Err (List Node) :=
  xs.mapM parse

/-- Modelled from the spec (§6.2 host contract): the SI factor of the
plain units exercised here; a name is a valid unit symbol exactly when it
has a factor. -/
def unitFactor : String → Option Q
  | "m" => some 1
  | "meter" => some 1
  | "cm" => some (1 / 100)
  | "mm" => some (1 / 1000)
  | "in" => some (127 / 5000)
  | "inch" => some (127 / 5000)
  | "foot" => some (381 / 1250)
  | _ => none

mutual

/-- Scalar multiplication of a number with a (possibly nested) array
value, elementwise (host `multiply` on mixed scalar/matrix input). -/
def scalarMul (a : Q) : Value → Except Err Value
  | .num b => .ok (.num (a * b))
  | .arr es => (scalarMulList a es).map Value.arr
  | _ => .error (.typeMismatch "unexpected operand of scalar multiplication")

/-- Elementwise scalar multiplication over a list of values. -/
def scalarMulList (a : Q) : List Value → Except Err (List Value)
  | [] => .ok []
  | v :: vs => do
      let w ← scalarMul a v
      let ws ← scalarMulList a vs
      .ok (w :: ws)

end

/-- Modelled from the spec (§4.3 Operator, §6.2 host contract): the named
host functions used by the operator nodes of the verified fragment.
Exponents must be integers (the model works on exact rationals);
`to` converts a unit quantity (or adopts the unit for a bare number, as
in the conversion reading of `2 in in`) into the target unit via the SI
factors. -/
def applyHost : String → List Value → Except Err Value
  | "add", [.num a, .num b] => .ok (.num (a + b))
  | "subtract", [.num a, .num b] => .ok (.num (a - b))
  | "multiply", [.num a, .num b] => .ok (.num (a * b))
  | "multiply", [.num a, .unitRef u] => .ok (.unit a u)
  | "multiply", [.unitRef u, .num a] => .ok (.unit a u)
  | "multiply", [.num a, .unit q u] => .ok (.unit (a * q) u)
  | "multiply", [.unit q u, .num a] => .ok (.unit (a * q) u)
  | "multiply", [.num a, .arr es] => (scalarMulList a es).map Value.arr
  | "multiply", [.arr es, .num a] => (scalarMulList a es).map Value.arr
  | "divide", [.num a, .num b] =>
      if b.num = 0 then .error (.typeMismatch "Division by zero") else .ok (.num (a / b))
  | "pow", [.num a, .num b] =>
      if b.den = 1 then
        if 0 ≤ b.num then .ok (.num (a.powNat b.num.toNat))
        else if a.num = 0 then .error (.typeMismatch "zero to a negative power")
        else .ok (.num ((a.powNat b.num.natAbs).inv))
      else .error (.typeMismatch "non-integer exponent")
  | "unaryMinus", [.num a] => .ok (.num (-a))
  | "unaryMinus", [.unit q u] => .ok (.unit (-q) u)
  | "unaryPlus", [.num a] => .ok (.num a)
  | "unaryPlus", [.bool b] => .ok (.num (if b then 1 else 0))
  | "factorial", [.num a] =>
      if a.den = 1 ∧ 0 ≤ a.num then .ok (.num ⟨(Nat.factorial a.num.toNat : Int), 1⟩)
      else .error (.typeMismatch "factorial of a non-natural number")
  | "to", [.unit q u, .unitRef u2] =>
      match unitFactor u, unitFactor u2 with
      | some f, some f2 => .ok (.unit (q * f / f2) u2)
      | _, _ => .error (.typeMismatch "unknown unit")
  | "to", [.num q, .unitRef u2] =>
      match unitFactor u2 with
      | some _ => .ok (.unit q u2)
      | none => .error (.typeMismatch "unknown unit")
  | "to", [.unit q u, .unit _ u2] =>
      match unitFactor u, unitFactor u2 with
      | some f, some f2 => .ok (.unit (q * f / f2) u2)
      | _, _ => .error (.typeMismatch "unknown unit")
  | fn, _ => .error (.typeMismatch ("invalid arguments for function " ++ fn))

/-- Modelled from the spec (§4.3 Index): host subset read with a 0-based
index path; out-of-range indices raise the host's zero-based
`Index out of range` errors (lower bound `0`, upper bound `length - 1`),
as pinned down by the repository's tests. -/
def hostSubsetGet : Value → List Int → Except Err Value
  | v, [] => .ok v
  | .arr es, i :: rest =>
      if i < 0 then .error (.indexOut i 0 true)
      else if (es.length : Int) ≤ i then .error (.indexOut i ((es.length : Int) - 1) false)
      else
        match es.get? i.toNat with
        | some v => hostSubsetGet v rest
        | none => .error (.typeMismatch "internal index error")
  | _, _ :: _ => .error (.typeMismatch "Cannot index a non-array value")

/-- Modelled from the spec (§4.3 Update): host subset write with a
0-based index path (the in-bounds fragment; resizing is not modelled). -/
def hostSubsetSet : Value → List Int → Value → Except Err Value
  | _, [], newV => .ok newV
  | .arr es, i :: rest, newV =>
      if i < 0 then .error (.indexOut i 0 true)
      else if (es.length : Int) ≤ i then .error (.indexOut i ((es.length : Int) - 1) false)
      else
        match es.get? i.toNat with
        | some old => (hostSubsetSet old rest newV).map (fun inner => .arr (es.set i.toNat inner))
        | none => .error (.typeMismatch "internal index error")
  | _, _ :: _, _ => .error (.typeMismatch "Cannot index a non-array value")

/-- Modelled from the spec (§3.5, §7): index errors crossing the
IndexNode boundary are re-translated from the host's 0-based convention
to the 1-based user surface; all other errors propagate unchanged. -/
def retranslateIndexErr : Err → Err
  | .indexOut i bound low => .indexOut (i + 1) (bound + 1) low
  | e => e

/-- Convert evaluated dimension values to integers (1-based user
indices). -/
def dimsToInts : List Value → Except Err (List Int)
  | [] => .ok []
  | .num q :: rest =>
      if q.den = 1 then (dimsToInts rest).map (q.num :: ·)
      else .error (.typeMismatch "Index must be an integer")
  | _ :: _ => .error (.typeMismatch "Index must be an integer")

/-- Modelled from the spec (§4.3 Conditional): the host truthiness
predicate — numbers are true when nonzero, booleans are themselves, all
other values are true. -/
def truthy : Value → Bool
  | .num q => decide (q ≠ 0)
  | .bool b => b
  | _ => true

/-- Modelled from the spec (§4.3 Symbol): symbol lookup resolves in the
scope first, then as a valueless plain unit; unresolved names raise
`Undefined symbol <name>`.  (The host's named constants and functions
are outside the verified fragment.) -/
def resolveSymbol (name : String) (s : Scope) : Except Err Value :=
  match lookupVar name s with
  | some v => .ok v
  | none =>
      match unitFactor name with
      | some _ => .ok (.unitRef name)
      | none => .error (.undefinedSymbol name)

mutual

/-- Modelled from the spec (§4.3 AST compile/eval contract): evaluation
of a node against a scope, returning the outcome together with the
updated scope (the scope at the failure point when an error is raised).
The fuel argument only bounds recursion depth; it never runs out on the
inputs considered here. -/
def evalNode : Nat → Node → Scope → (Except Err Value) × Scope
  | 0, _, s => (.error .fuelOut, s)
  | fuel + 1, n, s =>
    match n with
    | .num q => (.ok (.num q), s)
    | .bool b => (.ok (.bool b), s)
    | .undef => (.ok .undef, s)
    | .sym name => (resolveSymbol name s, s)
    | .paren inner => evalNode fuel inner s
    | .op _ fnName args =>
        match evalNodes fuel args s with
        | (.ok vals, s2) => (applyHost fnName vals, s2)
        | (.error e, s2) => (.error e, s2)
    | .conditional c t e =>
        match evalNode fuel c s with
        | (.ok cv, s2) => if truthy cv then evalNode fuel t s2 else evalNode fuel e s2
        | (.error er, s2) => (.error er, s2)
    | .arrayLit rows =>
        match evalRows fuel rows s with
        | (.ok rvals, s2) =>
            match rvals with
            | [r] => (.ok (.arr r), s2)
            | _ => (.ok (.arr (rvals.map Value.arr)), s2)
        | (.error e, s2) => (.error e, s2)
    | .indexGet obj dims =>
        match evalNode fuel obj s with
        | (.ok ov, s2) =>
            match evalNodes fuel dims s2 with
            | (.ok dvals, s3) =>
                match dimsToInts dvals with
                | .ok ints =>
                    match hostSubsetGet ov (ints.map (· - 1)) with
                    | .ok v => (.ok v, s3)
                    | .error e => (.error (retranslateIndexErr e), s3)
                | .error e => (.error e, s3)
            | (.error e, s3) => (.error e, s3)
        | (.error e, s2) => (.error e, s2)
    | .assign name v =>
        match evalNode fuel v s with
        | (.ok vv, s2) => (.ok vv, setVar name vv s2)
        | (.error e, s2) => (.error e, s2)
    | .update name dims v =>
        match lookupVar name s with
        | none => (.error (.undefinedSymbol name), s)
        | some cur =>
            match evalNodes fuel dims s with
            | (.ok dvals, s2) =>
                match evalNode fuel v s2 with
                | (.ok newV, s3) =>
                    match dimsToInts dvals with
                    | .ok ints =>
                        match hostSubsetSet cur (ints.map (· - 1)) newV with
                        | .ok cont => (.ok cont, setVar name cont s3)
                        | .error e => (.error (retranslateIndexErr e), s3)
                    | .error e => (.error e, s3)
                | (.error e, s3) => (.error e, s3)
            | (.error e, s2) => (.error e, s2)
    | .call fname args =>
        match evalNodes fuel args s with
        | (.ok vals, s2) =>
            match lookupVar fname s2 with
            | some (.func params _ body) =>
                if vals.length = params.length then
                  ((evalNode fuel body ((params.zip vals) ++ s2)).1, s2)
                else (.error (.typeMismatch ("Wrong number of arguments for " ++ fname)), s2)
            | some _ => (.error (.typeMismatch (fname ++ " is not a function")), s2)
            | none => (.error (.undefinedSymbol fname), s2)
        | (.error e, s2) => (.error e, s2)
    | .funcAssign fname params body =>
        let v := Value.func params (fname ++ "(" ++ String.intercalate ", " params ++ ")") body
        (.ok v, setVar fname v s)
    | .block entries =>
        match evalEntries fuel entries s with
        | (.ok vis, s2) => (.ok (.resultSet vis), s2)
        | (.error e, s2) => (.error e, s2)

/-- Left-to-right evaluation of a node list, threading the scope. -/
def evalNodes : Nat → List Node → Scope → (Except Err (List Value)) × Scope
  | 0, _, s => (.error .fuelOut, s)
  | _ + 1, [], s => (.ok [], s)
  | fuel + 1, n :: ns, s =>
      match evalNode fuel n s with
      | (.ok v, s2) =>
          match evalNodes fuel ns s2 with
          | (.ok vs, s3) => (.ok (v :: vs), s3)
          | (.error e, s3) => (.error e, s3)
      | (.error e, s2) => (.error e, s2)

/-- Row-major evaluation of matrix literal rows. -/
def evalRows : Nat → List (List Node) → Scope → (Except Err (List (List Value))) × Scope
  | 0, _, s => (.error .fuelOut, s)
  | _ + 1, [], s => (.ok [], s)
  | fuel + 1, r :: rs, s =>
      match evalNodes fuel r s with
      | (.ok rv, s2) =>
          match evalRows fuel rs s2 with
          | (.ok rvs, s3) => (.ok (rv :: rvs), s3)
          | (.error e, s3) => (.error e, s3)
      | (.error e, s2) => (.error e, s2)

/-- Modelled from the spec (§4.3 Block): entries evaluated in order,
collecting the values of the visible entries only. -/
def evalEntries : Nat → List (Node × Bool) → Scope → (Except Err (List Value)) × Scope
  | 0, _, s => (.error .fuelOut, s)
  | _ + 1, [], s => (.ok [], s)
  | fuel + 1, (n, vis) :: es, s =>
      match evalNode fuel n s with
      | (.ok v, s2) =>
          match evalEntries fuel es s2 with
          | (.ok vs, s3) => (.ok (if vis then v :: vs else vs), s3)
          | (.error e, s3) => (.error e, s3)
      | (.error e, s2) => (.error e, s2)

end

/-- Modelled from the spec (§3.3, §6.3): the reserved names that must
never appear in the scope. -/
def reservedNames : List String := ["end"]

/-- Default evaluation fuel; ample for every input considered here. -/
def BigFuel : Nat := 1000

/-- Modelled from the spec (§3.3, §6.3): evaluating a compiled node
against a scope first rejects scopes binding a reserved name with the
`Scope contains an illegal symbol` error, then evaluates the node. -/
def evalProgram (n : Node) (s : Scope) : (Except Err Value) × Scope :=
  if reservedNames.any (fun r => (lookupVar r s).isSome) then (.error .illegalScope, s)
  else evalNode BigFuel n s

/-- Modelled from the spec (§6.1 convenience `eval`): parse, then
evaluate against the given scope. -/
def parseEval (src : String) (s : Scope) : (Except Err Value) × Scope :=
  match parse src with
  | .ok n => evalProgram n s
  | .error e => (.error e, s)

/-- Outcome component of `parseEval`. -/
def parseEvalFst (src : String) (s : Scope) : Except Err Value := (parseEval src s).1

/-- Scope component of `parseEval`. -/
def parseEvalSnd (src : String) (s : Scope) : Scope := (parseEval src s).2

/-- Evaluate a sequence of sources in order against a shared scope,
collecting each outcome (the statement-sequence form of the public
API). -/
def runAll : List String → Scope → (Except Err (List Value)) × Scope
  | [], s => (.ok [], s)
  | src :: rest, s =>
      match parseEval src s with
      | (.ok v, s2) =>
          match runAll rest s2 with
          | (.ok vs, s3) => (.ok (v :: vs), s3)
          | (.error e, s3) => (.error e, s3)
      | (.error e, s2) => (.error e, s2)

/-! ## Claim theorems -/

/-- AST produced by parsing `true ? (a = 2) : (b = 2)`. -/
def condProg : Node :=
  Node.conditional (Node.bool true)
    (Node.paren (Node.assign "a" (Node.num 2)))
    (Node.paren (Node.assign "b" (Node.num 2)))

/-- Evaluating the conditional program only runs the selected branch:
for any scope the result is `2` and the only scope change is the binding
of `a`. -/
theorem evalNode_condProg (m : Nat) (s : Scope) :
    evalNode (m + 4) condProg s = (.ok (.num 2), setVar "a" (.num 2) s) := by
  simp [condProg, evalNode, truthy]

/-- C3 (counterexample): the claim quantifies over every scope, but a
scope binding the reserved name `end` is rejected before evaluation, so
`a` is never set there — contradicting the claim at the concrete scope
`{end: 1}`. -/
theorem C3_counterexample :
    parseEval "true ? (a = 2) : (b = 2)" [("end", Value.num 1)]
      = (.error .illegalScope, [("end", Value.num 1)]) ∧
    lookupVar "a" (parseEvalSnd "true ? (a = 2) : (b = 2)" [("end", Value.num 1)]) = none := by
  exact ⟨rfl, rfl⟩

/-- C3 (amended: the scope must not bind the reserved name `end`):
evaluating `true ? (a = 2) : (b = 2)` against any scope without an `end`
binding returns 2, sets `a` to 2, and leaves every other binding of the
scope (in particular `b`) unchanged — the unselected branch is never
evaluated. -/
theorem C3_conditional_laziness (s : Scope) (h : lookupVar "end" s = none) :
    parseEvalFst "true ? (a = 2) : (b = 2)" s = .ok (.num 2) ∧
    lookupVar "a" (parseEvalSnd "true ? (a = 2) : (b = 2)" s) = some (.num 2) ∧
    ∀ k, k ≠ "a" → lookupVar k (parseEvalSnd "true ? (a = 2) : (b = 2)" s) = lookupVar k s := by
  have hp : parse "true ? (a = 2) : (b = 2)" = .ok condProg := rfl
  have hpe : parseEval "true ? (a = 2) : (b = 2)" s = (.ok (.num 2), setVar "a" (.num 2) s) := by
    rw [parseEval, hp]
    show evalProgram condProg s = _
    rw [evalProgram]
    have hc : (reservedNames.any fun r => (lookupVar r s).isSome) = false := by
      simp [reservedNames, h]
    rw [hc]
    have hf : BigFuel = 996 + 4 := rfl
    simp only [if_false, Bool.false_eq_true, hf]
    exact evalNode_condProg 996 s
  refine ⟨?_, ?_, ?_⟩
  · rw [parseEvalFst, hpe]
  · rw [parseEvalSnd, hpe]
    exact lookupVar_setVar_same "a" (.num 2) s
  · intro k hk
    rw [parseEvalSnd, hpe]
    exact lookupVar_setVar_other "a" k (.num 2) s hk

/-- C3 (witness): the amended theorem applied at the concrete scope
`{c: 9}`. -/
theorem C3_conditional_laziness_witness :
    lookupVar "end" ([("c", Value.num 9)] : Scope) = none ∧
    parseEvalFst "true ? (a = 2) : (b = 2)" [("c", Value.num 9)] = .ok (.num 2) ∧
    lookupVar "a" (parseEvalSnd "true ? (a = 2) : (b = 2)" [("c", Value.num 9)]) = some (.num 2) ∧
    lookupVar "b" (parseEvalSnd "true ? (a = 2) : (b = 2)" [("c", Value.num 9)])
      = lookupVar "b" ([("c", Value.num 9)] : Scope) := by
  have h := C3_conditional_laziness [("c", Value.num 9)] rfl
  exact ⟨rfl, h.1, h.2.1, h.2.2 "b" (by decide)⟩

/-- C4: for every expression node and every scope binding the reserved
name `end`, evaluation fails with the `Scope contains an illegal symbol`
error (and the scope is untouched), regardless of the expression. -/
theorem C4_reserved_scope_rejected (n : Node) (s : Scope)
    (h : (lookupVar "end" s).isSome = true) :
    evalProgram n s = (.error .illegalScope, s) ∧
    Err.illegalScope.message = "Scope contains an illegal symbol" := by
  constructor
  · rw [evalProgram]
    have hc : (reservedNames.any fun r => (lookupVar r s).isSome) = true := by
      simp [reservedNames, h]
    rw [hc]
    simp
  · rfl

/-- C4 (witness): the theorem applied to the parsed expression `2+3` and
the concrete scope `{end: 2}`. -/
theorem C4_reserved_scope_rejected_witness :
    (lookupVar "end" ([("end", Value.num 2)] : Scope)).isSome = true ∧
    evalProgram (Node.op "+" "add" [Node.num 2, Node.num 3]) [("end", Value.num 2)]
      = (.error .illegalScope, [("end", Value.num 2)]) ∧
    parse "2+3" = .ok (Node.op "+" "add" [Node.num 2, Node.num 3]) := by
  refine ⟨rfl, ?_, rfl⟩
  exact (C4_reserved_scope_rejected (Node.op "+" "add" [Node.num 2, Node.num 3])
    [("end", Value.num 2)] rfl).1

/-- AST produced by parsing `qq[1,1]=33`. -/
def updProg : Node := Node.update "qq" [Node.num 1, Node.num 1] (Node.num 33)

/-- Evaluating an indexed assignment whose container variable is unbound
fails with `Undefined symbol` before touching the scope. -/
theorem evalNode_updProg_unbound (m : Nat) (s : Scope) (h : lookupVar "qq" s = none) :
    evalNode (m + 1) updProg s = (.error (.undefinedSymbol "qq"), s) := by
  simp [updProg, evalNode, h]

/-- C10: an indexed assignment `qq[1,1]=33` requires the container to be
bound: against every scope without a `qq` binding it throws (as
`Undefined symbol qq` whenever the scope is otherwise legal) and leaves
the scope unchanged, while against a scope binding `qq` to a matrix it
succeeds and writes the updated container back. -/
theorem C10_update_requires_bound_container (s : Scope) (h : lookupVar "qq" s = none) :
    (∃ e, parseEvalFst "qq[1,1]=33" s = .error e) ∧
    parseEvalSnd "qq[1,1]=33" s = s ∧
    (lookupVar "end" s = none →
      parseEvalFst "qq[1,1]=33" s = .error (.undefinedSymbol "qq")) ∧
    parseEval "qq[1,1]=33"
        [("qq", Value.arr [Value.arr [Value.num 1, Value.num 2], Value.arr [Value.num 3, Value.num 4]])]
      = (.ok (Value.arr [Value.arr [Value.num 33, Value.num 2], Value.arr [Value.num 3, Value.num 4]]),
         [("qq", Value.arr [Value.arr [Value.num 33, Value.num 2], Value.arr [Value.num 3, Value.num 4]])]) := by
  have hp : parse "qq[1,1]=33" = .ok updProg := rfl
  by_cases hend : (lookupVar "end" s).isSome = true
  · have hpe : parseEval "qq[1,1]=33" s = (.error .illegalScope, s) := by
      rw [parseEval, hp]
      show evalProgram updProg s = _
      rw [evalProgram]
      have hc : (reservedNames.any fun r => (lookupVar r s).isSome) = true := by
        simp [reservedNames, hend]
      rw [hc]
      simp
    refine ⟨⟨.illegalScope, ?_⟩, ?_, ?_, rfl⟩
    · rw [parseEvalFst, hpe]
    · rw [parseEvalSnd, hpe]
    · intro hnone
      rw [hnone] at hend
      simp at hend
  · have hpe : parseEval "qq[1,1]=33" s = (.error (.undefinedSymbol "qq"), s) := by
      rw [parseEval, hp]
      show evalProgram updProg s = _
      rw [evalProgram]
      have hc : (reservedNames.any fun r => (lookupVar r s).isSome) = false := by
        simp [reservedNames]
        simpa using hend
      rw [hc]
      have hf : BigFuel = 999 + 1 := rfl
      simp only [if_false, Bool.false_eq_true, hf]
      exact evalNode_updProg_unbound 999 s h
    refine ⟨⟨.undefinedSymbol "qq", ?_⟩, ?_, ?_, rfl⟩
    · rw [parseEvalFst, hpe]
    · rw [parseEvalSnd, hpe]
    · intro _
      rw [parseEvalFst, hpe]

/-- C10 (witness): the theorem applied at the empty scope. -/
theorem C10_update_requires_bound_container_witness :
    lookupVar "qq" ([] : Scope) = none ∧
    parseEvalFst "qq[1,1]=33" [] = .error (.undefinedSymbol "qq") ∧
    parseEvalSnd "qq[1,1]=33" [] = ([] : Scope) := by
  have h := C10_update_requires_bound_container [] rfl
  exact ⟨rfl, h.2.2.1 rfl, h.2.1⟩

/-- C1 (counterexample): evaluating `b = 43; b * 4` yields the singleton
`ResultSet([172])`, not the bare value 172 the claim promises for a block
with exactly one visible entry. -/
theorem C1_counterexample :
    parseEvalFst "b = 43; b * 4" [] = .ok (.resultSet [.num 172]) ∧
    parseEvalFst "b = 43; b * 4" [] ≠ .ok (.num 172) := by
  have h1 : parseEvalFst "b = 43; b * 4" [] = .ok (.resultSet [.num 172]) := rfl
  refine ⟨h1, ?_⟩
  rw [h1]
  simp

/-- C1 (amended: a block's entries are evaluated in order and only the
visible entries contribute outputs, and the result is a `ResultSet` of
the visible values in order even when exactly one entry is visible):
`b = 43; b * 4` evaluates to `ResultSet([172])` with `b` bound to 43,
`a=3\nb=4\na*b` evaluates to `ResultSet([3, 4, 12])`, and
`\n;\n2 * 4\n` (one visible entry among empty ones) to `ResultSet([8])`.
A source without statement separators is not a block and yields its bare
value. -/
theorem C1_block_resultset :
    parseEvalFst "b = 43; b * 4" [] = .ok (.resultSet [.num 172]) ∧
    parseEvalSnd "b = 43; b * 4" [] = [("b", .num 43)] ∧
    parseEvalFst "a=3\nb=4\na*b" [] = .ok (.resultSet [.num 3, .num 4, .num 12]) ∧
    parseEvalFst "\n;\n2 * 4\n" [] = .ok (.resultSet [.num 8]) ∧
    parseEvalFst "2 * 4" [] = .ok (.num 8) := by
  exact ⟨rfl, rfl, rfl, rfl, rfl⟩

/-- C2: the stated precedence laws all hold against the empty scope:
`-3^2 = -9` (unary minus applies to the power), `(-3)^2 = 9`,
`2^3^4 = 2^(3^4)` (power is right-associative), `2+3*4 = 14`, and
`3!^2 = 36` (postfix factorial binds tighter than power). -/
theorem C2_precedence_laws :
    parseEvalFst "-3^2" [] = .ok (.num (-9)) ∧
    parseEvalFst "(-3)^2" [] = .ok (.num 9) ∧
    parseEvalFst "2^3^4" [] = .ok (.num 2417851639229258349412352) ∧
    parseEvalFst "2^3^4" [] = parseEvalFst "2^(3^4)" [] ∧
    parseEvalFst "2+3*4" [] = .ok (.num 14) ∧
    parseEvalFst "3!^2" [] = .ok (.num 36) := by
  exact ⟨rfl, rfl, rfl, rfl, rfl, rfl⟩

/-- C5: a function assignment captures the defining scope by reference:
after `a = 3` and `f(x) = a * x`, the call `f(2)` returns 6; after
`a = 5` the same call returns 10; and the free variable `q` of
`g(x) = x^q` may be defined after `g`, provided it is defined before the
first call (`g(3)` then returns 9).  The callable stores only its body
and parameter list — no copy of the defining scope — and exposes the
`name(params…)` signature attribute. -/
theorem C5_function_captures_scope_by_reference :
    runAll ["a = 3", "f(x) = a * x", "f(2)", "a = 5", "f(2)", "g(x) = x^q", "q = 4/2", "g(3)"] []
      = (.ok [.num 3,
              .func ["x"] "f(x)" (Node.op "*" "multiply" [Node.sym "a", Node.sym "x"]),
              .num 6, .num 5, .num 10,
              .func ["x"] "g(x)" (Node.op "^" "pow" [Node.sym "x", Node.sym "q"]),
              .num 2, .num 9],
         [("a", .num 5),
          ("f", .func ["x"] "f(x)" (Node.op "*" "multiply" [Node.sym "a", Node.sym "x"])),
          ("g", .func ["x"] "g(x)" (Node.op "^" "pow" [Node.sym "x", Node.sym "q"])),
          ("q", .num 2)]) := by
  rfl

/-- C6: index errors raised by the host at an IndexNode are re-translated
from the host's 0-based convention to the 1-based user surface, while
other host errors pass unchanged: for `A = [1,2,3]`, `A[4]` fails with
`Index out of range (4 > 3)` and `A[-2]` with `Index out of range
(-2 < 1)`, whereas the host subset function called directly with index 4
reports `(4 > 2)` and with -2 reports `(-2 < 0)`; a non-index host error
is left untouched by the retranslation. -/
theorem C6_index_errors_one_based :
    parseEvalFst "A[4]" [("A", .arr [.num 1, .num 2, .num 3])] = .error (.indexOut 4 3 false) ∧
    (Err.indexOut 4 3 false).message = "Index out of range (4 > 3)" ∧
    parseEvalFst "A[-2]" [("A", .arr [.num 1, .num 2, .num 3])] = .error (.indexOut (-2) 1 true) ∧
    (Err.indexOut (-2) 1 true).message = "Index out of range (-2 < 1)" ∧
    hostSubsetGet (.arr [.num 1, .num 2, .num 3]) [4] = .error (.indexOut 4 2 false) ∧
    (Err.indexOut 4 2 false).message = "Index out of range (4 > 2)" ∧
    hostSubsetGet (.arr [.num 1, .num 2, .num 3]) [-2] = .error (.indexOut (-2) 0 true) ∧
    (Err.indexOut (-2) 0 true).message = "Index out of range (-2 < 0)" ∧
    retranslateIndexErr (.typeMismatch "Dimension mismatch (2 != 1)")
      = .typeMismatch "Dimension mismatch (2 != 1)" := by
  exact ⟨rfl, rfl, rfl, rfl, rfl, rfl, rfl, rfl, rfl⟩

/-- C7: between two values, `in` is the conversion operator exactly when
the following token can start an expression, and otherwise stays the
inch unit: `2 in` is the unit value 2 inches (parsed as `2 *
Symbol(in)`), `2 in in` is a conversion yielding 2 inches, `5.08 cm in
in` converts to 2 inches, and `2 in in meter` converts 2 inches to
meters (the first `in` is the unit, the second the operator, as the
parse tree shows). -/
theorem C7_in_unit_versus_conversion :
    parseEvalFst "2 in" [] = .ok (.unit 2 "in") ∧
    parse "2 in" = .ok (Node.op "*" "multiply" [Node.num 2, Node.sym "in"]) ∧
    parseEvalFst "2 in in" [] = .ok (.unit 2 "in") ∧
    parse "2 in in" = .ok (Node.op "in" "to" [Node.num 2, Node.sym "in"]) ∧
    parseEvalFst "5.08 cm in in" [] = .ok (.unit 2 "in") ∧
    parseEvalFst "2 in in meter" [] = .ok (.unit (127 / 2500) "meter") ∧
    parse "2 in in meter" = .ok (Node.op "in" "to"
      [Node.op "*" "multiply" [Node.num 2, Node.sym "in"], Node.sym "meter"]) := by
  exact ⟨rfl, rfl, rfl, rfl, rfl, rfl, rfl⟩

/-- C8 (counterexample): `(2+3)2` parses as an implicit multiplication
with a bare number as right operand and evaluates to 10, so implicit
multiplication is not created exactly for the claimed shapes (symbol,
parenthesised expression or matrix literal on the right). -/
theorem C8_counterexample :
    parseEvalFst "(2+3)2" [] = .ok (.num 10) ∧
    parse "(2+3)2" = .ok (Node.op "*" "multiply"
      [Node.paren (Node.op "+" "add" [Node.num 2, Node.num 3]), Node.num 2]) := by
  exact ⟨rfl, rfl⟩

/-- C8 (amended: adjacency also multiplies when the right operand is a
bare number and the left operand is not itself a bare number, as in
`(2+3)2 = 10`; the remaining shapes are as claimed): `4a` is `4*a`
(8 with `a=2`), `(2+3)(4+5) = 45`, `2 [2, 3] = [4, 6]`, adjacency of two
bare numbers (`2 3`) is the parse error `Unexpected part "3"`, and a
symbol followed by `[…]` (`A [2,2]`) is indexing, not multiplication. -/
theorem C8_implicit_multiplication :
    parseEvalFst "4a" [("a", .num 2)] = .ok (.num 8) ∧
    parse "4a" = .ok (Node.op "*" "multiply" [Node.num 4, Node.sym "a"]) ∧
    parseEvalFst "(2+3)(4+5)" [] = .ok (.num 45) ∧
    parseEvalFst "2 [2, 3]" [] = .ok (.arr [.num 4, .num 6]) ∧
    parse "2 3" = .error (.parseErr "Unexpected part \"3\"") ∧
    parseEvalFst "A [2,2]" [("A", .arr [.arr [.num 1, .num 2], .arr [.num 3, .num 4]])]
      = .ok (.num 4) ∧
    parse "A [2,2]" = .ok (Node.indexGet (Node.sym "A") [Node.num 2, Node.num 2]) ∧
    parseEvalFst "(2+3)2" [] = .ok (.num 10) := by
  exact ⟨rfl, rfl, rfl, rfl, rfl, rfl, rfl, rfl⟩

/-- C9: parsing the empty string succeeds (yielding the undefined
constant, not a syntax error) and evaluates to the undefined value;
likewise each empty string of a sequence input parses to a node
evaluating to undefined. -/
theorem C9_empty_expression :
    parse "" = .ok Node.undef ∧
    parseEvalFst "" [] = .ok .undef ∧
    parseMulti [""] = .ok [Node.undef] ∧
    (parseMulti ["", ""]).map (fun ns => ns.map (fun n => (evalProgram n []).1))
      = .ok [.ok .undef, .ok .undef] := by
  exact ⟨rfl, rfl, rfl, rfl⟩

end MathExpr
